import Mathlib

/- Verification of the spreadsheet profitability analyzer (analyzer.py).
   The development shallowly embeds the parts of the program the claims are
   about: the header-row locator, the dynamic-header table loader, and the
   aggregation pipeline of analyze_files (status classification, grouping,
   joining, profit formula, total row).  Cells are modelled as an inductive
   type (missing / text / numeric with exact rationals standing in for the
   program's floats), tables as lists of rows. -/

/-- A spreadsheet cell: absent (NaN), textual, or numeric. -/
inductive Cell where
  | missing : Cell
  | str : String → Cell
  | num : ℚ → Cell
deriving DecidableEq

/-- Rendering of a numeric cell as text (stands in for Python str on numbers). -/
def ratPyStr (q : ℚ) : String :=
  if q.den = 1 then toString q.num else toString q.num ++ "/" ++ toString q.den

/-- Python str() of a cell; NaN renders as the text nan. -/
def cellPyStr : Cell → String
  | Cell.missing => "nan"
  | Cell.str s => s
  | Cell.num q => ratPyStr q

/-- Case folding of one character: ASCII capitals and Cyrillic capitals,
including the letter Ё, fold to their lower-case forms. -/
def lowerChar (c : Char) : Char :=
  if 65 ≤ c.toNat ∧ c.toNat ≤ 90 then Char.ofNat (c.toNat + 32)
  else if 0x410 ≤ c.toNat ∧ c.toNat ≤ 0x42F then Char.ofNat (c.toNat + 32)
  else if c.toNat = 0x401 then Char.ofNat 0x451
  else c

/-- Python lower() on a string. -/
def pyLower (s : String) : String := String.mk (s.data.map lowerChar)

/-- Python strip(): drop whitespace from both ends. -/
def pyStrip (s : String) : String :=
  String.mk (((s.data.dropWhile Char.isWhitespace).reverse.dropWhile Char.isWhitespace).reverse)

/-- The cell-text normalisation used by the header scans:
str(cell).lower().strip(). -/
def pyNorm (s : String) : String := pyStrip (pyLower s)

/-- The pattern occurs at the head of the character list. -/
def listHasPre : List Char → List Char → Bool
  | [], _ => true
  | _ :: _, [] => false
  | p :: ps, c :: cs => p == c && listHasPre ps cs

/-- The pattern occurs somewhere in the character list. -/
def listHasSub (pat : List Char) : List Char → Bool
  | [] => pat.isEmpty
  | c :: cs => listHasPre pat (c :: cs) || listHasSub pat cs

/-- Python substring containment: pat in s. -/
def strContains (s pat : String) : Bool := listHasSub pat.data s.data

/-- Joining a list of strings with single spaces, as the header scan does. -/
def joinSpace : List String → String
  | [] => ""
  | [s] => s
  | s :: rest => s ++ " " ++ joinSpace rest

/-- The search text of one raw row in find_header_row: the space-joined
normalised texts of the row's non-missing cells. -/
def rowToStr (row : List Cell) : String :=
  joinSpace ((row.filter (fun c => decide (c ≠ Cell.missing))).map (fun c => pyNorm (cellPyStr c)))

/-- A row matches when every target token, lower-cased, occurs as a substring
of the row's search text (the loop body of find_header_row). -/
def rowMatches (targets : List String) (row : List Cell) : Bool :=
  targets.all (fun t => strContains (rowToStr row) (pyLower t))

/-- Top-to-bottom scan carrying the current row index; returns the index of
the first row satisfying the predicate. -/
def findHeaderAux (p : List Cell → Bool) : Nat → List (List Cell) → Option Nat
  | _, [] => none
  | i, r :: rs => if p r then some i else findHeaderAux p (i + 1) rs

/-- analyzer.find_header_row: scan at most maxRows leading rows of the raw
table for the first row containing every target token; none when absent. -/
def find_header_row (t : List (List Cell)) (targets : List String) (maxRows : Nat) : Option Nat :=
  findHeaderAux (rowMatches targets) 0 (t.take maxRows)

/-- A loaded data frame: column names plus data rows. -/
structure DF where
  cols : List String
  rows : List (List Cell)
deriving DecidableEq

/-- Column name produced by reading with a given header row: a missing header
cell becomes unnamed with its ordinal, any other cell is rendered as text;
the program then strips and lower-cases every name. -/
def headerName (i : Nat) (c : Cell) : String :=
  match c with
  | Cell.missing => "unnamed: " ++ toString i
  | c => pyLower (pyStrip (cellPyStr c))

/-- Reading the table with the header at row index h: the cells of row h,
normalised, become the column names; all rows up to and including h are
discarded. -/
def headerAt (h : Nat) (t : List (List Cell)) : DF :=
  { cols := (t.getD h []).enum.map (fun p => headerName p.1 p.2)
    rows := t.drop (h + 1) }

/-- One dictionary update of the fallback column mapping. -/
def updMap (m : String → Option Nat) (k : String) (v : Nat) : String → Option Nat :=
  fun s => if s = k then some v else m s

/-- Scan the cells of one row (the inner loop of the fallback branch of
read_excel_with_dynamic_header): a non-missing cell whose normalised text
contains some required token maps the first such token to the cell's column
ordinal. -/
def scanCells (required : List String) : (String → Option Nat) → Nat → List Cell → (String → Option Nat)
  | m, _, [] => m
  | m, i, c :: cs =>
    let m2 :=
      match c with
      | Cell.missing => m
      | c =>
        match required.find? (fun t => strContains (pyNorm (cellPyStr c)) t) with
        | some t => updMap m t i
        | none => m
    scanCells required m2 (i + 1) cs

/-- Scan a list of rows, threading the column mapping. -/
def scanRows (required : List String) : (String → Option Nat) → List (List Cell) → (String → Option Nat)
  | m, [] => m
  | m, r :: rs => scanRows required (scanCells required m 0 r) rs

/-- The fallback content scan of read_excel_with_dynamic_header: the first
five raw rows are scanned for cells containing required tokens. -/
def scanMapping (required : List String) (t : List (List Cell)) : String → Option Nat :=
  scanRows required (fun _ => none) (t.take 5)

/-- analyzer.read_excel_with_dynamic_header: locate the header row and read
with it; otherwise scan cell contents for the required columns, selecting the
mapped column ordinals, and fail with the list of unresolved required columns
when the mapping is incomplete. -/
def read_excel_with_dynamic_header (t : List (List Cell)) (required : List String) (maxSearch : Nat) :
    Except (List String) DF :=
  match find_header_row t required maxSearch with
  | some h => Except.ok (headerAt h t)
  | none =>
    let m := scanMapping required t
    let missing := required.filter (fun r => (m r).isNone)
    if missing = [] then
      Except.ok
        { cols := required
          rows := t.map (fun row => required.map (fun r => row.getD ((m r).getD 0) Cell.missing)) }
    else Except.error missing

/-- The revenue-loading step embedded in analyze_files: the file is read with
the hard-coded header row index 1 and the column names are normalised. -/
def revenueFixedLoad (t : List (List Cell)) : DF := headerAt 1 t

/-- An orders table after loading: one (article, status) pair per order row. -/
abbrev OrdersTable := List (Cell × Cell)

/-- A keyed value table after loading: (article, value) pairs; used for the
revenue table and for the costs table. -/
abbrev KVTable := List (Cell × Cell)

/-- Status normalisation of analyze_files: astype(str), lower-case, and fold
the letter ё to е. -/
def statusNorm (c : Cell) : String :=
  String.mk ((pyLower (cellPyStr c)).data.map (fun ch => if ch = 'ё' then 'е' else ch))

/-- The delivered filter: the normalised status contains the delivered marker. -/
def isDelivered (c : Cell) : Bool := strContains (statusNorm c) "доставлен"

/-- The cancelled filter: the normalised status contains the cancelled marker. -/
def isCancelled (c : Cell) : Bool := strContains (statusNorm c) "отмен"

/-- Number of order rows of a given article passing the delivered filter. -/
def deliveredCount (o : OrdersTable) (a : Cell) : Nat :=
  o.countP (fun r => decide (r.1 = a) && isDelivered r.2)

/-- Number of order rows of a given article passing the cancelled filter. -/
def cancelledCount (o : OrdersTable) (a : Cell) : Nat :=
  o.countP (fun r => decide (r.1 = a) && isCancelled r.2)

/-- Number of order rows of a given article passing neither filter. -/
def otherCount (o : OrdersTable) (a : Cell) : Nat :=
  o.countP (fun r => decide (r.1 = a) && !isDelivered r.2 && !isCancelled r.2)

/-- Number of order rows of a given article passing both filters at once. -/
def bothCount (o : OrdersTable) (a : Cell) : Nat :=
  o.countP (fun r => decide (r.1 = a) && isDelivered r.2 && isCancelled r.2)

/-- Total number of order rows carrying a given article. -/
def orderCount (o : OrdersTable) (a : Cell) : Nat :=
  o.countP (fun r => decide (r.1 = a))

/-- First-appearance deduplication (pandas unique), carrying the set of
already seen values. -/
def uniqFirstAux : List Cell → List Cell → List Cell
  | _, [] => []
  | seen, a :: rest =>
    if a ∈ seen then uniqFirstAux seen rest else a :: uniqFirstAux (a :: seen) rest

/-- The identifier universe of analyze_files: the distinct non-missing
articles of the orders table in order of first appearance. -/
def all_articles (o : OrdersTable) : List Cell :=
  uniqFirstAux [] ((o.map Prod.fst).filter (fun c => decide (c ≠ Cell.missing)))

/-- Numeric content of a value cell; text and missing cells carry no number. -/
def valOf : Cell → Option ℚ
  | Cell.num q => some q
  | _ => none

/-- Grouped revenue sum for one article: none when the article has no revenue
rows at all (the group is absent), otherwise the sum of the present numeric
values (missing values are skipped by the sum). -/
def revenue_sum (rev : KVTable) (a : Cell) : Option ℚ :=
  let g := rev.filter (fun r => decide (r.1 = a))
  if g = [] then none else some ((g.filterMap (fun r => valOf r.2)).sum)

/-- Grouped unit-cost mean for one article: the arithmetic mean of the
present numeric values; none when no value is present (no cost row at all, or
every price cell missing), matching the joined column being NaN in both
cases. -/
def cost_avg (costs : KVTable) (a : Cell) : Option ℚ :=
  let vs := (costs.filter (fun r => decide (r.1 = a))).filterMap (fun r => valOf r.2)
  if vs = [] then none else some (vs.sum / (vs.length : ℚ))

/-- One row of the final report. -/
structure ReportRow where
  article : Cell
  delivered : Nat
  cancelled : Nat
  revenue : ℚ
  cost : Option ℚ
  profit : ℚ
deriving DecidableEq

/-- The report row of one article: counts reindexed with fill 0, revenue
left-joined then filled with 0, unit cost left-joined and kept missing, and
profit computed with a missing unit cost treated as 0 in the formula only. -/
def mkRow (o : OrdersTable) (rev costs : KVTable) (a : Cell) : ReportRow :=
  { article := a
    delivered := deliveredCount o a
    cancelled := cancelledCount o a
    revenue := (revenue_sum rev a).getD 0
    cost := cost_avg costs a
    profit := (revenue_sum rev a).getD 0 - (deliveredCount o a : ℚ) * ((cost_avg costs a).getD 0) }

/-- The synthetic total row: column sums of the identifier rows, with the
unit-cost field always missing. -/
def totalRow (rows : List ReportRow) : ReportRow :=
  { article := Cell.str "Итого"
    delivered := (rows.map (fun r => r.delivered)).sum
    cancelled := (rows.map (fun r => r.cancelled)).sum
    revenue := (rows.map (fun r => r.revenue)).sum
    cost := none
    profit := (rows.map (fun r => r.profit)).sum }

/-- The aggregation stage of analyzer.analyze_files on the three loaded
tables: one report row per article of the universe, in first-appearance
order, with the total row appended last. -/
def analyze_files (o : OrdersTable) (rev costs : KVTable) : List ReportRow :=
  let rows := (all_articles o).map (mkRow o rev costs)
  rows ++ [totalRow rows]

/-- Sample orders table: one delivered order for one article. -/
def o1 : OrdersTable := [(Cell.str "a", Cell.str "Доставлен")]

/-- Sample orders table: a status containing both outcome markers. -/
def o4 : OrdersTable := [(Cell.str "A1", Cell.str "Доставлен, затем отменен")]

/-- Sample orders table: one cancelled order. -/
def o6 : OrdersTable := [(Cell.str "b", Cell.str "Отменен")]

/-- Sample orders table: two articles equal after trimming but distinct raw. -/
def o9 : OrdersTable :=
  [(Cell.str "A1", Cell.str "Доставлен"), (Cell.str " A1 ", Cell.str "Доставлен")]

/-- Sample orders table for the all-missing-prices case. -/
def o10 : OrdersTable := [(Cell.str "c", Cell.str "Доставлен")]

/-- Sample costs table: a cost row whose price cell is missing. -/
def costs10 : KVTable := [(Cell.str "c", Cell.missing)]

/-- Sample raw table whose columns are sku and qty only. -/
def t7 : List (List Cell) := [[Cell.str "sku", Cell.str "qty"], [Cell.str "s1", Cell.str "5"]]

/-- Sample raw revenue table with the header in the first row. -/
def tRev : List (List Cell) :=
  [[Cell.str "Артикул", Cell.str "Сумма итого, руб."], [Cell.str "A1", Cell.str "100"]]

/-- Sample raw revenue table with the header in the second row. -/
def tRev1 : List (List Cell) :=
  [[Cell.str "выгрузка"], [Cell.str "Артикул", Cell.str "Сумма итого, руб."],
   [Cell.str "A1", Cell.str "100"]]

theorem findHeaderAux_eq_some (p : List Cell → Bool) (l : List (List Cell)) (s i : Nat) :
    findHeaderAux p s l = some i ↔
      ∃ k, k < l.length ∧ i = s + k ∧ p (l.getD k []) = true ∧
        ∀ j, j < k → p (l.getD j []) = false := by
  induction l generalizing s with
  | nil => simp [findHeaderAux]
  | cons r rs ih =>
    cases hpr : p r with
    | true =>
      rw [show findHeaderAux p s (r :: rs) = some s from by simp [findHeaderAux, hpr]]
      constructor
      · intro hc
        refine ⟨0, by simp, ?_, by simpa [List.getD] using hpr, fun j hj => absurd hj (Nat.not_lt_zero j)⟩
        simpa using (Option.some.injEq .. ▸ hc).symm
      · rintro ⟨k, hk, rfl, hpk, hmin⟩
        cases k with
        | zero => simp
        | succ k =>
          have h0 := hmin 0 (Nat.succ_pos k)
          simp [List.getD] at h0
          rw [h0] at hpr
          cases hpr
    | false =>
      rw [show findHeaderAux p s (r :: rs) = findHeaderAux p (s + 1) rs from by
        simp [findHeaderAux, hpr]]
      rw [ih (s + 1)]
      constructor
      · rintro ⟨k, hk, rfl, hpk, hmin⟩
        refine ⟨k + 1, by simpa using hk, by omega, by simpa [List.getD] using hpk, ?_⟩
        intro j hj
        cases j with
        | zero => simpa [List.getD] using hpr
        | succ j => simpa [List.getD] using hmin j (by omega)
      · rintro ⟨k, hk, rfl, hpk, hmin⟩
        cases k with
        | zero =>
          simp [List.getD] at hpk
          rw [hpk] at hpr
          cases hpr
        | succ k =>
          refine ⟨k, by simpa using hk, by omega, by simpa [List.getD] using hpk, ?_⟩
          intro j hj
          simpa [List.getD] using hmin (j + 1) (by omega)

theorem findHeaderAux_eq_none (p : List Cell → Bool) (l : List (List Cell)) (s : Nat) :
    findHeaderAux p s l = none ↔ ∀ k, k < l.length → p (l.getD k []) = false := by
  induction l generalizing s with
  | nil => simp [findHeaderAux]
  | cons r rs ih =>
    cases hpr : p r with
    | true =>
      rw [show findHeaderAux p s (r :: rs) = some s from by simp [findHeaderAux, hpr]]
      constructor
      · intro hc
        exact absurd hc (by simp)
      · intro hall
        have h0 := hall 0 (by simp)
        simp [List.getD] at h0
        rw [h0] at hpr
        cases hpr
    | false =>
      rw [show findHeaderAux p s (r :: rs) = findHeaderAux p (s + 1) rs from by
        simp [findHeaderAux, hpr]]
      rw [ih (s + 1)]
      constructor
      · intro hall k hk
        cases k with
        | zero => simpa [List.getD] using hpr
        | succ k => simpa [List.getD] using hall k (by simpa using hk)
      · intro hall k hk
        simpa [List.getD] using hall (k + 1) (by simpa using hk)

theorem take_getD (t : List (List Cell)) (cap k : Nat) (h : k < cap) :
    (t.take cap).getD k [] = t.getD k [] := by
  induction cap generalizing t k with
  | zero => omega
  | succ cap ih =>
    cases t with
    | nil => simp
    | cons r rs =>
      cases k with
      | zero => simp [List.getD]
      | succ k => simpa [List.getD] using ih rs k (by omega)

theorem dropLast_append_single {α : Type} (l : List α) (a : α) : (l ++ [a]).dropLast = l := by
  simp

theorem analyze_files_dropLast (o : OrdersTable) (rev costs : KVTable) :
    (analyze_files o rev costs).dropLast = (all_articles o).map (mkRow o rev costs) := by
  rw [analyze_files]
  exact dropLast_append_single _ _

theorem mem_uniqFirstAux (seen l : List Cell) (a : Cell) :
    a ∈ uniqFirstAux seen l ↔ (a ∈ l ∧ a ∉ seen) := by
  induction l generalizing seen with
  | nil => simp [uniqFirstAux]
  | cons b rest ih =>
    by_cases hb : b ∈ seen
    · rw [show uniqFirstAux seen (b :: rest) = uniqFirstAux seen rest from by
        simp [uniqFirstAux, hb]]
      rw [ih seen]
      constructor
      · rintro ⟨h1, h2⟩
        exact ⟨List.mem_cons_of_mem b h1, h2⟩
      · rintro ⟨h1, h2⟩
        rcases List.mem_cons.1 h1 with rfl | h1
        · exact absurd hb h2
        · exact ⟨h1, h2⟩
    · rw [show uniqFirstAux seen (b :: rest) = b :: uniqFirstAux (b :: seen) rest from by
        simp [uniqFirstAux, hb]]
      constructor
      · intro h
        rcases List.mem_cons.1 h with rfl | h
        · exact ⟨List.mem_cons_self a rest, hb⟩
        · have hm := (ih (b :: seen)).1 h
          exact ⟨List.mem_cons_of_mem b hm.1, fun hs => hm.2 (List.mem_cons_of_mem b hs)⟩
      · rintro ⟨h1, h2⟩
        rcases List.mem_cons.1 h1 with rfl | h1
        · exact List.mem_cons_self a _
        · by_cases hab : a = b
          · subst hab
            exact List.mem_cons_self a _
          · refine List.mem_cons_of_mem b ((ih (b :: seen)).2 ⟨h1, ?_⟩)
            intro hs
            rcases List.mem_cons.1 hs with h | h
            · exact hab h
            · exact h2 h

theorem nodup_uniqFirstAux (seen l : List Cell) : (uniqFirstAux seen l).Nodup := by
  induction l generalizing seen with
  | nil => simp [uniqFirstAux]
  | cons b rest ih =>
    by_cases hb : b ∈ seen
    · rw [show uniqFirstAux seen (b :: rest) = uniqFirstAux seen rest from by
        simp [uniqFirstAux, hb]]
      exact ih seen
    · rw [show uniqFirstAux seen (b :: rest) = b :: uniqFirstAux (b :: seen) rest from by
        simp [uniqFirstAux, hb]]
      rw [List.nodup_cons]
      refine ⟨?_, ih (b :: seen)⟩
      intro hmem
      exact ((mem_uniqFirstAux (b :: seen) rest b).1 hmem).2 (List.mem_cons_self b seen)

theorem map_article_mkRow (o : OrdersTable) (rev costs : KVTable) (l : List Cell) :
    (l.map (mkRow o rev costs)).map (fun r => r.article) = l := by
  induction l with
  | nil => rfl
  | cons a t ih => simp [mkRow, ih]

theorem mkRow_mem_dropLast (o : OrdersTable) (rev costs : KVTable) (a : Cell)
    (ha : a ∈ all_articles o) :
    mkRow o rev costs a ∈ (analyze_files o rev costs).dropLast := by
  rw [analyze_files_dropLast]
  exact List.mem_map.2 ⟨a, ha, rfl⟩

/-- C5: for every raw table and set of required header tokens,
find_header_row returns the smallest row index, among at most the capped
number of leading rows, at which every required token occurs (after
case-folding and trimming) as a substring of the space-joined concatenation
of the row's non-empty cells; when no such row exists within the cap it
returns none; the scan is strictly top-to-bottom and the first matching row
wins. -/
theorem C5_header_locator (t : List (List Cell)) (targets : List String) (cap : Nat) :
    (∀ i, find_header_row t targets cap = some i ↔
        (i < cap ∧ i < t.length ∧ rowMatches targets (t.getD i []) = true ∧
          ∀ j, j < i → rowMatches targets (t.getD j []) = false)) ∧
    (find_header_row t targets cap = none ↔
        ∀ i, i < cap → i < t.length → rowMatches targets (t.getD i []) = false) := by
  constructor
  · intro i
    rw [find_header_row, findHeaderAux_eq_some]
    constructor
    · rintro ⟨k, hk, rfl, hpk, hmin⟩
      rw [List.length_take] at hk
      have hk1 : k < cap := lt_of_lt_of_le hk (min_le_left _ _)
      have hk2 : k < t.length := lt_of_lt_of_le hk (min_le_right _ _)
      refine ⟨by omega, by omega, ?_, ?_⟩
      · rw [show (0 : Nat) + k = k from by omega, ← take_getD t cap k hk1]
        exact hpk
      · intro j hj
        have hj1 : j < cap := by omega
        rw [← take_getD t cap j hj1]
        exact hmin j (by omega)
    · rintro ⟨h1, h2, h3, h4⟩
      refine ⟨i, ?_, by omega, ?_, ?_⟩
      · rw [List.length_take]
        omega
      · rw [take_getD t cap i h1]
        exact h3
      · intro j hj
        rw [take_getD t cap j (by omega)]
        exact h4 j hj
  · rw [find_header_row, findHeaderAux_eq_none]
    constructor
    · intro hall i hi1 hi2
      rw [← take_getD t cap i hi1]
      refine hall i ?_
      rw [List.length_take]
      omega
    · intro hall k hk
      rw [List.length_take] at hk
      rw [take_getD t cap k (by omega)]
      exact hall k (by omega) (by omega)

/-- C2: for every triple of loaded tables, the identifier rows of the report
are exactly the distinct non-missing identifiers of the orders table, in
first-appearance order; an identifier appearing only in the revenue table or
only in the costs table never appears as a report row. -/
theorem C2_order_centric_universe (o : OrdersTable) (rev costs : KVTable) :
    ((analyze_files o rev costs).dropLast.map (fun r => r.article)) = all_articles o ∧
    ∀ a, a ∈ all_articles o ↔ (a ≠ Cell.missing ∧ a ∈ o.map Prod.fst) := by
  constructor
  · rw [analyze_files_dropLast, map_article_mkRow]
  · intro a
    rw [all_articles, mem_uniqFirstAux]
    simp only [List.mem_filter, List.not_mem_nil, not_false_iff, and_true,
      decide_eq_true_eq]
    exact and_comm

/-- C3: the produced report is the identifier rows followed by exactly one
synthetic total row, placed last, whose delivered, cancelled, revenue and
profit fields are the sums of the corresponding column over the identifier
rows, and whose unit-cost field is always missing. -/
theorem C3_total_row (o : OrdersTable) (rev costs : KVTable) :
    ∃ rows t, analyze_files o rev costs = rows ++ [t] ∧
      rows = (all_articles o).map (mkRow o rev costs) ∧
      t.delivered = (rows.map (fun r => r.delivered)).sum ∧
      t.cancelled = (rows.map (fun r => r.cancelled)).sum ∧
      t.revenue = (rows.map (fun r => r.revenue)).sum ∧
      t.profit = (rows.map (fun r => r.profit)).sum ∧
      t.cost = none :=
  ⟨(all_articles o).map (mkRow o rev costs),
   totalRow ((all_articles o).map (mkRow o rev costs)),
   rfl, rfl, rfl, rfl, rfl, rfl, rfl⟩

/-- C1: every identifier row of the final report has profit equal to its
revenue total minus the delivered count times the unit cost, where a missing
unit cost is treated as 0 in this computation only; for a row with no
matching cost rows the displayed unit-cost field remains missing and the
profit equals the revenue exactly. -/
theorem C1_profit_formula (o : OrdersTable) (rev costs : KVTable) (row : ReportRow)
    (h : row ∈ (analyze_files o rev costs).dropLast) :
    row.profit = row.revenue - (row.delivered : ℚ) * (row.cost.getD 0) ∧
    (costs.filter (fun r => decide (r.1 = row.article)) = [] →
      row.cost = none ∧ row.profit = row.revenue) := by
  rw [analyze_files_dropLast] at h
  obtain ⟨a, ha, rfl⟩ := List.mem_map.1 h
  refine ⟨rfl, ?_⟩
  intro hc
  have hart : (mkRow o rev costs a).article = a := rfl
  rw [hart] at hc
  have hca : cost_avg costs a = none := by simp [cost_avg, hc]
  constructor
  · exact hca
  · show (revenue_sum rev a).getD 0 - (deliveredCount o a : ℚ) * ((cost_avg costs a).getD 0)
      = (revenue_sum rev a).getD 0
    rw [hca]
    simp

/-- Witness for C1 at a concrete input: one delivered order, no revenue rows,
no cost rows. -/
theorem C1_profit_formula_witness :
    (mkRow o1 [] [] (Cell.str "a")).profit
        = (mkRow o1 [] [] (Cell.str "a")).revenue
          - ((mkRow o1 [] [] (Cell.str "a")).delivered : ℚ)
            * ((mkRow o1 [] [] (Cell.str "a")).cost.getD 0) ∧
    (([] : KVTable).filter (fun r => decide (r.1 = (mkRow o1 [] [] (Cell.str "a")).article)) = [] →
      (mkRow o1 [] [] (Cell.str "a")).cost = none ∧
      (mkRow o1 [] [] (Cell.str "a")).profit = (mkRow o1 [] [] (Cell.str "a")).revenue) :=
  C1_profit_formula o1 [] [] (mkRow o1 [] [] (Cell.str "a"))
    (mkRow_mem_dropLast o1 [] [] (Cell.str "a") (by decide))

/-- C4 as stated is false: a single order row whose status text contains both
the delivered marker and the cancelled marker is counted by both filters, so
delivered + cancelled + other exceeds the number of order rows. -/
theorem C4_counterexample :
    deliveredCount o4 (Cell.str "A1") + cancelledCount o4 (Cell.str "A1")
        + otherCount o4 (Cell.str "A1") ≠ orderCount o4 (Cell.str "A1") := by
  decide

/-- C4 amended: the delivered and cancelled filters are independent substring
checks, so for every identifier the delivered count plus the cancelled count
plus the other count equals the total number of order rows carrying that
identifier plus the number of rows whose status matches both markers;
classification is a partition exactly when no row matches both. -/
theorem C4_partition_amended (o : OrdersTable) (a : Cell) :
    deliveredCount o a + cancelledCount o a + otherCount o a
      = orderCount o a + bothCount o a := by
  induction o with
  | nil => rfl
  | cons r t ih =>
    simp only [deliveredCount, cancelledCount, otherCount, orderCount, bothCount,
      List.countP_cons] at ih ⊢
    cases hart : decide (r.1 = a) <;> cases hd : isDelivered r.2 <;>
      cases hc : isCancelled r.2 <;> simp [hart, hd, hc] <;> omega

/-- C6: for every identifier in the report universe, the left-join fill
policy holds: with no matching revenue rows the grouped revenue is absent but
the report row receives revenue 0 (a filled zero) and its profit equals the
negation of the delivered count times the unit cost used by the formula; with
no matching cost rows the unit cost is missing, never zero. -/
theorem C6_left_join_fill (o : OrdersTable) (rev costs : KVTable) (a : Cell)
    (ha : a ∈ all_articles o) :
    mkRow o rev costs a ∈ (analyze_files o rev costs).dropLast ∧
    (rev.filter (fun r => decide (r.1 = a)) = [] →
      revenue_sum rev a = none ∧ (mkRow o rev costs a).revenue = 0 ∧
      (mkRow o rev costs a).profit
        = -(((mkRow o rev costs a).delivered : ℚ) * (((mkRow o rev costs a).cost).getD 0))) ∧
    (costs.filter (fun r => decide (r.1 = a)) = [] →
      cost_avg costs a = none ∧ (mkRow o rev costs a).cost = none) := by
  refine ⟨mkRow_mem_dropLast o rev costs a ha, ?_, ?_⟩
  · intro hrev
    have hrs : revenue_sum rev a = none := by simp [revenue_sum, hrev]
    refine ⟨hrs, ?_, ?_⟩
    · show (revenue_sum rev a).getD 0 = 0
      rw [hrs]
      rfl
    · show (revenue_sum rev a).getD 0 - (deliveredCount o a : ℚ) * ((cost_avg costs a).getD 0)
        = -((deliveredCount o a : ℚ) * ((cost_avg costs a).getD 0))
      rw [hrs]
      show (0 : ℚ) - _ = _
      rw [zero_sub]
  · intro hc
    have hca : cost_avg costs a = none := by simp [cost_avg, hc]
    exact ⟨hca, hca⟩

/-- Witness for C6 at a concrete input: one cancelled order, empty revenue
and costs tables. -/
theorem C6_left_join_fill_witness :
    mkRow o6 [] [] (Cell.str "b") ∈ (analyze_files o6 [] []).dropLast ∧
    (([] : KVTable).filter (fun r => decide (r.1 = Cell.str "b")) = [] →
      revenue_sum [] (Cell.str "b") = none ∧ (mkRow o6 [] [] (Cell.str "b")).revenue = 0 ∧
      (mkRow o6 [] [] (Cell.str "b")).profit
        = -(((mkRow o6 [] [] (Cell.str "b")).delivered : ℚ)
            * (((mkRow o6 [] [] (Cell.str "b")).cost).getD 0))) ∧
    (([] : KVTable).filter (fun r => decide (r.1 = Cell.str "b")) = [] →
      cost_avg [] (Cell.str "b") = none ∧ (mkRow o6 [] [] (Cell.str "b")).cost = none) :=
  C6_left_join_fill o6 [] [] (Cell.str "b") (by decide)

/-- C7 as stated is false: two files with different available columns, both
lacking the required column, raise identical errors, so the raised error
cannot carry the list of columns actually present; it carries only the
missing required columns. -/
theorem C7_counterexample :
    read_excel_with_dynamic_header [[Cell.str "sku", Cell.str "qty"]] ["purchase price"] 30
        = Except.error ["purchase price"] ∧
    read_excel_with_dynamic_header [[Cell.str "foo", Cell.str "bar"]] ["purchase price"] 30
        = Except.error ["purchase price"] ∧
    ([[Cell.str "sku", Cell.str "qty"]] : List (List Cell)) ≠ [[Cell.str "foo", Cell.str "bar"]] :=
  ⟨rfl, rfl, by decide⟩

/-- C7 amended: whenever the header row is not found within the search cap and
the fallback content scan leaves some required column unmapped, table loading
fails (no partial result) with an error carrying exactly the list of missing
required columns; the columns actually present are not part of the error. -/
theorem C7_schema_error (t : List (List Cell)) (required : List String) (ms : Nat)
    (hnf : find_header_row t required ms = none)
    (hmiss : required.filter (fun r => (scanMapping required t r).isNone) ≠ []) :
    read_excel_with_dynamic_header t required ms
      = Except.error (required.filter (fun r => (scanMapping required t r).isNone)) := by
  simp only [read_excel_with_dynamic_header, hnf]
  rw [if_neg hmiss]

/-- Witness for C7 at the concrete input of the specification: required
column purchase price absent from a file whose columns are sku and qty. -/
theorem C7_schema_error_witness :
    read_excel_with_dynamic_header t7 ["purchase price"] 30
      = Except.error (["purchase price"].filter
          (fun r => (scanMapping ["purchase price"] t7 r).isNone)) :=
  C7_schema_error t7 ["purchase price"] 30 (by decide) (by decide)

/-- C8 as stated is false: on a revenue table whose header tokens sit in the
first row, the dynamic-header loader reads with header row 0 while the
embedded revenue-loading step reads with the hard-coded header row 1, and
the two results differ. -/
theorem C8_counterexample :
    read_excel_with_dynamic_header tRev ["артикул", "сумма"] 10 = Except.ok (headerAt 0 tRev) ∧
    revenueFixedLoad tRev = headerAt 1 tRev ∧
    headerAt 0 tRev ≠ headerAt 1 tRev :=
  ⟨rfl, rfl, by decide⟩

/-- C8 amended: the revenue table is read with a fixed, hard-coded header
position (row index 1), not through the Header Locator; the fixed read
coincides with the dynamic-header loader exactly on tables where the header
scan locates the tokens at row index 1. -/
theorem C8_fixed_header_refinement (t : List (List Cell)) (required : List String) (ms : Nat)
    (h : find_header_row t required ms = some 1) :
    read_excel_with_dynamic_header t required ms = Except.ok (revenueFixedLoad t) := by
  simp [read_excel_with_dynamic_header, h, revenueFixedLoad]

/-- Witness for C8 at a concrete input: a revenue table whose header tokens
are found at row index 1. -/
theorem C8_fixed_header_refinement_witness :
    read_excel_with_dynamic_header tRev1 ["артикул", "сумма"] 10
      = Except.ok (revenueFixedLoad tRev1) :=
  C8_fixed_header_refinement tRev1 ["артикул", "сумма"] 10 (by decide)

/-- C9 as stated is false: two source cells whose trimmed texts are equal but
whose raw texts differ by surrounding whitespace are grouped under two
distinct report rows, so identifiers are not compared by trimmed string
equality. -/
theorem C9_counterexample :
    pyStrip " A1 " = pyStrip "A1" ∧
    ((analyze_files o9 [] []).dropLast.map (fun r => r.article))
      = [Cell.str "A1", Cell.str " A1 "] := by
  constructor
  · decide
  · decide

/-- C9 amended: throughout grouping, reindexing and joining, identifiers are
kept as raw cell values and compared by raw cell equality, with no trimming
and no coercion between numeric and textual forms: every identifier row of
the report equals the raw-key aggregation at its own article cell, and no two
identifier rows share a raw article value. -/
theorem C9_raw_key (o : OrdersTable) (rev costs : KVTable) (row : ReportRow)
    (h : row ∈ (analyze_files o rev costs).dropLast) :
    row = mkRow o rev costs row.article ∧
    ((analyze_files o rev costs).dropLast.map (fun r => r.article)).Nodup := by
  rw [analyze_files_dropLast] at h ⊢
  obtain ⟨a, ha, rfl⟩ := List.mem_map.1 h
  refine ⟨rfl, ?_⟩
  rw [map_article_mkRow]
  exact nodup_uniqFirstAux [] _

/-- Witness for C9 amended at a concrete input. -/
theorem C9_raw_key_witness :
    mkRow o9 [] [] (Cell.str "A1")
        = mkRow o9 [] [] ((mkRow o9 [] [] (Cell.str "A1")).article) ∧
    ((analyze_files o9 [] []).dropLast.map (fun r => r.article)).Nodup :=
  C9_raw_key o9 [] [] (mkRow o9 [] [] (Cell.str "A1"))
    (mkRow_mem_dropLast o9 [] [] (Cell.str "A1") (by decide))

/-- C10: when cost rows exist for an identifier but every unit-price cell in
them is missing, the averaging skips the missing cells, the report's unit
cost is missing (not 0), and the row's profit equals its revenue; so a
missing unit cost does not imply that no cost row exists. -/
theorem C10_all_missing_prices (o : OrdersTable) (rev costs : KVTable) (a : Cell)
    (ha : a ∈ all_articles o)
    (hrows : costs.filter (fun r => decide (r.1 = a)) ≠ [])
    (hvals : (costs.filter (fun r => decide (r.1 = a))).filterMap (fun r => valOf r.2) = []) :
    (mkRow o rev costs a).cost = none ∧
    (mkRow o rev costs a).profit = (mkRow o rev costs a).revenue ∧
    mkRow o rev costs a ∈ (analyze_files o rev costs).dropLast := by
  have hca : cost_avg costs a = none := by simp [cost_avg, hvals]
  refine ⟨hca, ?_, mkRow_mem_dropLast o rev costs a ha⟩
  show (revenue_sum rev a).getD 0 - (deliveredCount o a : ℚ) * ((cost_avg costs a).getD 0)
      = (revenue_sum rev a).getD 0
  rw [hca]
  simp

/-- Witness for C10 at a concrete input: one delivered order and one cost
row whose price cell is missing. -/
theorem C10_all_missing_prices_witness :
    (mkRow o10 [] costs10 (Cell.str "c")).cost = none ∧
    (mkRow o10 [] costs10 (Cell.str "c")).profit = (mkRow o10 [] costs10 (Cell.str "c")).revenue ∧
    mkRow o10 [] costs10 (Cell.str "c") ∈ (analyze_files o10 [] costs10).dropLast :=
  C10_all_missing_prices o10 [] costs10 (Cell.str "c") (by decide) (by decide) (by decide)
